import Mathlib

/-!
Verification of the DNS wire-format engine (`bits/record.rs`,
`opt/rfc7314.rs`, `opt/rfc7828.rs`) against its specification.

The byte cursor (Parser) and the output builder are external collaborators
of the engine; they are modelled here exactly as the specification
describes them: a bounds-checked sequential reader over a byte list, and a
growable output buffer with a capacity that appends bytes and allows
patching previously written bytes. Bytes are natural numbers below 256;
multi-byte integers are big-endian. Fallible operations return `Except`
paired with the cursor state after the call, mirroring the in-place
mutation of the Rust cursor (on a primitive failure the cursor is left
unchanged, as in the Rust parser).
-/

set_option autoImplicit false

namespace DnsWire

/-- Error of the external cursor and builder primitives: not enough bytes
remain (reading) or not enough room remains (writing). -/
inductive ShortBuf where
  | shortBuf
deriving Repr, DecidableEq

/-- The external bounds-checked byte cursor (`Parser` in the source). -/
structure Parser where
  data : List Nat
  pos : Nat
deriving Repr, DecidableEq

/-- Bytes remaining between the cursor position and the end of the data. -/
def Parser.remaining (p : Parser) : Nat :=
  p.data.length - p.pos

/-- The byte `i` positions ahead of the cursor (0 when out of range; all
uses are guarded by a `remaining` check). -/
def Parser.getByte (p : Parser) (i : Nat) : Nat :=
  p.data.getD (p.pos + i) 0

/-- `Parser::advance`: move the cursor forward `n` bytes, failing (and
leaving the cursor unchanged) when fewer than `n` bytes remain. -/
def Parser.advance (p : Parser) (n : Nat) : Except ShortBuf Unit × Parser :=
  if n ≤ p.remaining then (.ok (), { p with pos := p.pos + n })
  else (.error .shortBuf, p)

/-- `Parser::seek`: move the cursor to an absolute position, failing when
the position lies beyond the end of the data. -/
def Parser.seek (p : Parser) (tgt : Nat) : Except ShortBuf Unit × Parser :=
  if tgt ≤ p.data.length then (.ok (), { p with pos := tgt })
  else (.error .shortBuf, p)

/-- Big-endian 16-bit read. -/
def rd16 (a b : Nat) : Nat := a * 256 + b

/-- Big-endian 32-bit read. -/
def rd32 (a b c d : Nat) : Nat := ((a * 256 + b) * 256 + c) * 256 + d

/-- `Parser::parse_u16`: read a big-endian 16-bit integer. -/
def Parser.parse_u16 (p : Parser) : Except ShortBuf Nat × Parser :=
  if 2 ≤ p.remaining then
    (.ok (rd16 (p.getByte 0) (p.getByte 1)), { p with pos := p.pos + 2 })
  else (.error .shortBuf, p)

/-- `Parser::parse_u32`: read a big-endian 32-bit integer. -/
def Parser.parse_u32 (p : Parser) : Except ShortBuf Nat × Parser :=
  if 4 ≤ p.remaining then
    (.ok (rd32 (p.getByte 0) (p.getByte 1) (p.getByte 2) (p.getByte 3)),
     { p with pos := p.pos + 4 })
  else (.error .shortBuf, p)

/-- Big-endian 16-bit encoding of a value (the value is reduced modulo
2^16, as a `u16` store does). -/
def be16 (v : Nat) : List Nat := [v / 256 % 256, v % 256]

/-- Big-endian 32-bit encoding of a value. -/
def be32 (v : Nat) : List Nat :=
  [v / 16777216 % 256, v / 65536 % 256, v / 256 % 256, v % 256]

/-- Parse error of the option codec (`ParseError` in `domain-core`); the
only kind reachable from these option codecs is exhaustion of the region. -/
inductive ParseError where
  | ShortInput
deriving Repr, DecidableEq

--------------------------------------------------------------------------
-- Option codec: Expire (RFC 7314) and TcpKeepalive (RFC 7828)
--------------------------------------------------------------------------

/-- The Expire option: an optional 32-bit unsigned value
(`struct Expire(Option<u32>)`). -/
structure Expire where
  val : Option Nat
deriving Repr, DecidableEq

/-- `Expire::new`. -/
def Expire.new (expire : Option Nat) : Expire := ⟨expire⟩

/-- `Parse for Expire::parse`: a region with zero remaining bytes yields
the absent value; otherwise one big-endian 32-bit integer is read. -/
def Expire.parse (p : Parser) : Except ParseError Expire × Parser :=
  if p.remaining = 0 then (.ok (Expire.new none), p)
  else
    match p.parse_u32 with
    | (.ok v, p1) => (.ok (Expire.new (some v)), p1)
    | (.error _, p1) => (.error .ShortInput, p1)

/-- `Parse for Expire::skip`: mirrors the zero-vs-four-byte branching of
`parse` without retaining the value. -/
def Expire.skip (p : Parser) : Except ParseError Unit × Parser :=
  if p.remaining = 0 then (.ok (), p)
  else
    match p.advance 4 with
    | (.ok (), p1) => (.ok (), p1)
    | (.error _, p1) => (.error .ShortInput, p1)

/-- `Compose for Expire::compose`: the bytes appended to the builder —
nothing for absent, four big-endian bytes for a present value. The
builder is external and growable, so the append itself cannot fail. -/
def Expire.compose (e : Expire) : List Nat :=
  match e.val with
  | none => []
  | some v => be32 v

/-- The TcpKeepalive option: a 16-bit unsigned timeout
(`struct TcpKeepalive(u16)`). -/
structure TcpKeepalive where
  timeout : Nat
deriving Repr, DecidableEq

/-- `TcpKeepalive::new`. -/
def TcpKeepalive.new (timeout : Nat) : TcpKeepalive := ⟨timeout⟩

/-- `Parse for TcpKeepalive::parse`: always one big-endian 16-bit
integer, no branch on the region length. -/
def TcpKeepalive.parse (p : Parser) : Except ParseError TcpKeepalive × Parser :=
  match p.parse_u16 with
  | (.ok v, p1) => (.ok (TcpKeepalive.new v), p1)
  | (.error _, p1) => (.error .ShortInput, p1)

/-- `Compose for TcpKeepalive::compose`: the two big-endian bytes of the
timeout appended to the builder. -/
def TcpKeepalive.compose (k : TcpKeepalive) : List Nat :=
  be16 k.timeout

--------------------------------------------------------------------------
-- Record and RecordHeader (bits/record.rs)
--------------------------------------------------------------------------

/-- Modelled from the spec: the TTL-encoding error (`ParseTtlError` of the
missing `bits/ttl.rs`), carrying the rejected value; the spec leaves the
exact rejection trigger open, so the disallowed set is a parameter of
`Ttl.parse` below. -/
inductive ParseTtlError where
  | disallowed (v : Nat)
deriving Repr, DecidableEq

/-- Error of `Ttl::parse`: either the cursor ran out of bytes or the
encoding is disallowed. -/
inductive TtlParseError where
  | shortBuf
  | ttl (e : ParseTtlError)
deriving Repr, DecidableEq

/-- Modelled from the spec: `Ttl::parse` of the missing `bits/ttl.rs`
reads one big-endian 32-bit integer (the TTL is a 32-bit unsigned count of
seconds) and fails with a TTL error when the value falls in the disallowed
set `bad`, whose exact extent the spec leaves open. -/
def Ttl.parse (bad : Nat → Bool) (p : Parser) : Except TtlParseError Nat × Parser :=
  match p.parse_u32 with
  | (.error _, p1) => (.error .shortBuf, p1)
  | (.ok v, p1) =>
      if bad v then (.error (.ttl (.disallowed v)), p1) else (.ok v, p1)

/-- `RecordHeaderParseError`: name error, TTL error, or buffer
exhaustion. `N` is the error type of the external name codec. -/
inductive RecordHeaderParseError (N : Type) where
  | Name (e : N)
  | Ttl (e : ParseTtlError)
  | ShortBuf
deriving Repr, DecidableEq

/-- `RecordParseError`: adds the typed payload (`Data`) error of the
record-data dispatch to the header errors. -/
inductive RecordParseError (N D : Type) where
  | Name (e : N)
  | Ttl (e : ParseTtlError)
  | Data (e : D)
  | ShortBuf
deriving Repr, DecidableEq

/-- `From<RecordHeaderParseError> for RecordParseError`. -/
def RecordParseError.ofHeader {N D : Type} :
    RecordHeaderParseError N → RecordParseError N D
  | .Name e => .Name e
  | .Ttl e => .Ttl e
  | .ShortBuf => .ShortBuf

/-- `RecordHeader`: owner name, type, class, TTL and data length. Type
and class codes are 16-bit numeric codes (the `iana` module of the
repository maps every 16-bit value to a code, so their parse is a plain
big-endian 16-bit read). -/
structure RecordHeader (N : Type) where
  name : N
  rtype : Nat
  «class» : Nat
  ttl : Nat
  rdlen : Nat
deriving Repr, DecidableEq

/-- `Record`: owner name, class, TTL and payload data. There is no type
field: the record type is derived from the payload. -/
structure Record (N D : Type) where
  name : N
  «class» : Nat
  ttl : Nat
  data : D
deriving Repr, DecidableEq

/-- `Record::new`. -/
def Record.new {N D : Type} (name : N) (cls ttl : Nat) (data : D) : Record N D :=
  ⟨name, cls, ttl, data⟩

/-- `Record::rtype`: derived from the payload data via the `RecordData`
trait's `rtype` method (here the parameter `drtype`). -/
def Record.rtype {N D : Type} (drtype : D → Nat) (r : Record N D) : Nat :=
  drtype r.data

/-- `RecordHeader::new`. -/
def RecordHeader.new {N : Type} (name : N) (rtype cls ttl rdlen : Nat) :
    RecordHeader N :=
  ⟨name, rtype, cls, ttl, rdlen⟩

/-- `RecordHeader::into_record`: the header's name, class and TTL plus
the given payload data; the header's own rtype and rdlen are dropped. -/
def RecordHeader.into_record {N D : Type} (h : RecordHeader N) (data : D) :
    Record N D :=
  Record.new h.name h.«class» h.ttl data

/-- `Parseable for RecordHeader::parse`: name first (through the external
name codec `nparse`), then type, class, TTL and rdlen as big-endian
integers; `bad` is the open disallowed-TTL set of `Ttl.parse`. -/
def RecordHeader.parse {N NE : Type}
    (nparse : Parser → Except NE N × Parser) (bad : Nat → Bool)
    (p : Parser) : Except (RecordHeaderParseError NE) (RecordHeader N) × Parser :=
  match nparse p with
  | (.error e, p1) => (.error (.Name e), p1)
  | (.ok name, p1) =>
  match p1.parse_u16 with
  | (.error _, p2) => (.error .ShortBuf, p2)
  | (.ok rtype, p2) =>
  match p2.parse_u16 with
  | (.error _, p3) => (.error .ShortBuf, p3)
  | (.ok cls, p3) =>
  match Ttl.parse bad p3 with
  | (.error .shortBuf, p4) => (.error .ShortBuf, p4)
  | (.error (.ttl e), p4) => (.error (.Ttl e), p4)
  | (.ok ttl, p4) =>
  match p4.parse_u16 with
  | (.error _, p5) => (.error .ShortBuf, p5)
  | (.ok rdlen, p5) => (.ok (RecordHeader.new name rtype cls ttl rdlen), p5)

/-- `RecordHeader::parse_and_skip`: parse the header, then advance the
cursor by `rdlen` bytes without interpreting them; an advance failure is
reported as `ShortBuf`. -/
def RecordHeader.parse_and_skip {N NE : Type}
    (nparse : Parser → Except NE N × Parser) (bad : Nat → Bool)
    (p : Parser) : Except (RecordHeaderParseError NE) (RecordHeader N) × Parser :=
  match RecordHeader.parse nparse bad p with
  | (.error e, p1) => (.error e, p1)
  | (.ok h, p1) =>
  match p1.advance h.rdlen with
  | (.ok (), p2) => (.ok h, p2)
  | (.error _, p2) => (.error .ShortBuf, p2)

/-- `RecordHeader::parse_into_record`: invoke the record-data dispatch
`dparse` (the `RecordData::parse` of the payload type, taking the type
code and declared rdlen) on the cursor; `Some` data yields the record,
`None` (type not recognized) seeks to the end of the record, and a
dispatch error is propagated as a `Data` error. -/
def RecordHeader.parse_into_record {N NE D DE : Type}
    (dparse : Nat → Nat → Parser → Except DE (Option D) × Parser)
    (h : RecordHeader N) (p : Parser) :
    Except (RecordParseError NE DE) (Option (Record N D)) × Parser :=
  let endPos := p.pos + h.rdlen
  match dparse h.rtype h.rdlen p with
  | (.error e, p1) => (.error (.Data e), p1)
  | (.ok (some data), p1) => (.ok (some (h.into_record data)), p1)
  | (.ok none, p1) =>
  match p1.seek endPos with
  | (.ok (), p2) => (.ok none, p2)
  | (.error _, p2) => (.error .ShortBuf, p2)

/-- `Parseable for Option<Record>::parse`: parse a header, then dispatch
on its type code; recognized data yields the record, an unrecognized type
advances the cursor by `rdlen` and yields none, and a dispatch error is
propagated as a `Data` error. -/
def parseOptRecord {N NE D DE : Type}
    (nparse : Parser → Except NE N × Parser) (bad : Nat → Bool)
    (dparse : Nat → Nat → Parser → Except DE (Option D) × Parser)
    (p : Parser) :
    Except (RecordParseError NE DE) (Option (Record N D)) × Parser :=
  match RecordHeader.parse nparse bad p with
  | (.error e, p1) => (.error (RecordParseError.ofHeader e), p1)
  | (.ok h, p1) =>
  match dparse h.rtype h.rdlen p1 with
  | (.ok (some data), p2) => (.ok (some (h.into_record data)), p2)
  | (.ok none, p2) =>
    match p2.advance h.rdlen with
    | (.ok (), p3) => (.ok none, p3)
    | (.error _, p3) => (.error .ShortBuf, p3)
  | (.error e, p2) => (.error (.Data e), p2)

--------------------------------------------------------------------------
-- Composition: plain (Composable) and compressing (Compressable)
--------------------------------------------------------------------------

/-- `Composable for RecordHeader::compose_len`: the name's composed
length plus the fixed 10 bytes of type, class, TTL and rdlen. -/
def RecordHeader.compose_len {N : Type} (nlen : N → Nat) (h : RecordHeader N) : Nat :=
  nlen h.name + 10

/-- `Composable for RecordHeader::compose`: the bytes appended to the
builder — name (through the external name codec `nbytes`), then type,
class, TTL and rdlen big-endian. The plain builder is growable and
unbounded, so plain composition is total. -/
def RecordHeader.composeBytes {N : Type} (nbytes : N → List Nat)
    (h : RecordHeader N) : List Nat :=
  nbytes h.name ++ be16 h.rtype ++ be16 h.«class» ++ be32 h.ttl ++ be16 h.rdlen

/-- `Composable for Record::compose_len`: name length plus payload length
plus the fixed 10 header bytes. -/
def Record.compose_len {N D : Type} (nlen : N → Nat) (dlen : D → Nat)
    (r : Record N D) : Nat :=
  nlen r.name + dlen r.data + 10

/-- `Composable for Record::compose`: build a header whose rtype is the
payload's `drtype` and whose rdlen is the payload's `compose_len` cast to
`u16` (reduced modulo 2^16), compose it, then compose the payload. -/
def Record.compose {N D : Type} (nbytes : N → List Nat)
    (drtype dlen : D → Nat) (dbytes : D → List Nat) (r : Record N D) : List Nat :=
  (RecordHeader.new r.name (drtype r.data) r.«class» r.ttl
      (dlen r.data % 65536)).composeBytes nbytes
    ++ dbytes r.data

/-- The external compressing builder (`Compressor`): a growable output
buffer with a capacity, tracking its current length and allowing patches
of previously written bytes. -/
structure Compressor where
  buf : List Nat
  cap : Nat
deriving Repr, DecidableEq

/-- `Compressor::compose` of a `u16`: append two big-endian bytes,
failing with `ShortBuf` when the capacity would be exceeded. -/
def Compressor.compose16 (c : Compressor) (v : Nat) : Except ShortBuf Compressor :=
  if c.buf.length + 2 ≤ c.cap then .ok { c with buf := c.buf ++ be16 v }
  else .error .shortBuf

/-- `Compressor::compose` of a `u32` (the TTL): append four big-endian
bytes, failing with `ShortBuf` when the capacity would be exceeded. -/
def Compressor.compose32 (c : Compressor) (v : Nat) : Except ShortBuf Compressor :=
  if c.buf.length + 4 ≤ c.cap then .ok { c with buf := c.buf ++ be32 v }
  else .error .shortBuf

/-- `BigEndian::write_u16` into the builder's slice at offset `pos`: patch
the two bytes there with the big-endian encoding of `v` (as `u16`). -/
def writeU16At (l : List Nat) (pos v : Nat) : List Nat :=
  (l.set pos (v / 256 % 256)).set (pos + 1) (v % 256)

/-- Outcome of a compressing composition: success, a `ShortBuf` error
result, or a process abort through a failed `assert!`. -/
inductive ComposeResult where
  | ok (c : Compressor)
  | shortBuf
  | panicked
deriving Repr, DecidableEq

/-- `Compressable for Record::compress`: compress the name, compose
type (derived from the payload), class and TTL, remember the offset,
compose a two-byte zero placeholder, compress the payload, then patch the
placeholder with the actual payload length — after `assert!`ing that the
length fits in 16 bits, which aborts the process when it does not. -/
def Record.compress {N D : Type} (drtype : D → Nat)
    (ncompress : N → Compressor → Except ShortBuf Compressor)
    (dcompress : D → Compressor → Except ShortBuf Compressor)
    (r : Record N D) (buf : Compressor) : ComposeResult :=
  match ncompress r.name buf with
  | .error _ => .shortBuf
  | .ok b1 =>
  match b1.compose16 (Record.rtype drtype r) with
  | .error _ => .shortBuf
  | .ok b2 =>
  match b2.compose16 r.«class» with
  | .error _ => .shortBuf
  | .ok b3 =>
  match b3.compose32 r.ttl with
  | .error _ => .shortBuf
  | .ok b4 =>
  let pos := b4.buf.length
  match b4.compose16 0 with
  | .error _ => .shortBuf
  | .ok b5 =>
  match dcompress r.data b5 with
  | .error _ => .shortBuf
  | .ok b6 =>
  let len := b6.buf.length - pos - 2
  if len ≤ 65535 then .ok { b6 with buf := writeU16At b6.buf pos len }
  else .panicked

--------------------------------------------------------------------------
-- Theorems
--------------------------------------------------------------------------

/-- C8: For the Expire option, parsing a region with zero remaining bytes
yields the absent value; otherwise parsing reads exactly one big-endian
32-bit integer (advancing the cursor by 4) and yields it as present;
composing absent writes zero bytes and composing a present value writes
exactly 4 bytes; the bytes 00 00 0E 10 parse to present 3600 and
composing present 3600 reproduces them; and parse after compose
round-trips for every Expire value. -/
theorem expire_parse_compose_spec :
    (∀ p : Parser, p.remaining = 0 →
      Expire.parse p = (.ok (Expire.new none), p)) ∧
    (∀ p : Parser, p.remaining ≠ 0 → 4 ≤ p.remaining →
      Expire.parse p =
        (.ok (Expire.new (some (rd32 (p.getByte 0) (p.getByte 1)
            (p.getByte 2) (p.getByte 3)))),
         { p with pos := p.pos + 4 })) ∧
    Expire.compose (Expire.new none) = [] ∧
    (∀ v : Nat, (Expire.compose (Expire.new (some v))).length = 4) ∧
    Expire.parse ⟨[0x00, 0x00, 0x0E, 0x10], 0⟩ =
      (.ok (Expire.new (some 3600)), ⟨[0x00, 0x00, 0x0E, 0x10], 4⟩) ∧
    Expire.compose (Expire.new (some 3600)) = [0x00, 0x00, 0x0E, 0x10] ∧
    Expire.parse ⟨Expire.compose (Expire.new none), 0⟩ =
      (.ok (Expire.new none), ⟨[], 0⟩) ∧
    (∀ v : Nat, v < 4294967296 →
      Expire.parse ⟨Expire.compose (Expire.new (some v)), 0⟩ =
        (.ok (Expire.new (some v)),
         ⟨Expire.compose (Expire.new (some v)), 4⟩)) := by
  refine ⟨?_, ?_, rfl, ?_, rfl, rfl, rfl, ?_⟩
  · intro p h
    simp [Expire.parse, h]
  · intro p h h4
    simp only [Expire.parse, Parser.parse_u32, if_neg h, if_pos h4]
  · intro v
    simp [Expire.compose, Expire.new, be32]
  · intro v hv
    have hb : Expire.compose (Expire.new (some v)) =
        [v / 16777216 % 256, v / 65536 % 256, v / 256 % 256, v % 256] := rfl
    rw [hb]
    simp only [Expire.parse, Parser.remaining, Parser.parse_u32, Parser.getByte,
      List.length_cons, List.length_nil]
    norm_num [rd32, List.getD]
    exact congrArg (fun w => Expire.new (some w)) (by omega)

/-- C8 witness: the Expire parse/compose theorem applied at concrete
inputs, each hypothesis discharged there. -/
theorem expire_parse_compose_spec_witness :
    Expire.parse ⟨[], 0⟩ = (.ok (Expire.new none), ⟨[], 0⟩) ∧
    Expire.parse ⟨[0, 0, 14, 16], 0⟩ =
      (.ok (Expire.new (some (rd32 0 0 14 16))), ⟨[0, 0, 14, 16], 4⟩) ∧
    Expire.parse ⟨Expire.compose (Expire.new (some 3600)), 0⟩ =
      (.ok (Expire.new (some 3600)),
       ⟨Expire.compose (Expire.new (some 3600)), 4⟩) := by
  refine ⟨expire_parse_compose_spec.1 ⟨[], 0⟩ (by decide), ?_, ?_⟩
  · have h := expire_parse_compose_spec.2.1 ⟨[0, 0, 14, 16], 0⟩
      (by decide) (by decide)
    simpa [Parser.getByte, List.getD] using h
  · exact expire_parse_compose_spec.2.2.2.2.2.2.2 3600 (by decide)

/-- C9: For the TcpKeepalive option, parsing always reads exactly one
big-endian 16-bit integer (advancing the cursor by 2, failing only on
exhaustion, with no variable-length branch), composing always writes
exactly 2 bytes; the bytes 00 96 parse to 150 and composing 150
reproduces 00 96. -/
theorem tcpKeepalive_parse_compose_spec :
    (∀ p : Parser, 2 ≤ p.remaining →
      TcpKeepalive.parse p =
        (.ok (TcpKeepalive.new (rd16 (p.getByte 0) (p.getByte 1))),
         { p with pos := p.pos + 2 })) ∧
    (∀ p : Parser, p.remaining < 2 →
      TcpKeepalive.parse p = (.error .ShortInput, p)) ∧
    (∀ k : TcpKeepalive, (TcpKeepalive.compose k).length = 2) ∧
    TcpKeepalive.parse ⟨[0x00, 0x96], 0⟩ =
      (.ok (TcpKeepalive.new 150), ⟨[0x00, 0x96], 2⟩) ∧
    TcpKeepalive.compose (TcpKeepalive.new 150) = [0x00, 0x96] ∧
    (∀ v : Nat, v < 65536 →
      TcpKeepalive.parse ⟨TcpKeepalive.compose (TcpKeepalive.new v), 0⟩ =
        (.ok (TcpKeepalive.new v),
         ⟨TcpKeepalive.compose (TcpKeepalive.new v), 2⟩)) := by
  refine ⟨?_, ?_, ?_, rfl, rfl, ?_⟩
  · intro p h
    simp only [TcpKeepalive.parse, Parser.parse_u16, if_pos h]
  · intro p h
    have hc : ¬ 2 ≤ p.remaining := by omega
    simp only [TcpKeepalive.parse, Parser.parse_u16, if_neg hc]
  · intro k
    simp [TcpKeepalive.compose, be16]
  · intro v hv
    have hb : TcpKeepalive.compose (TcpKeepalive.new v) =
        [v / 256 % 256, v % 256] := rfl
    rw [hb]
    simp only [TcpKeepalive.parse, Parser.remaining, Parser.parse_u16,
      Parser.getByte, List.length_cons, List.length_nil]
    norm_num [rd16, List.getD]
    exact congrArg TcpKeepalive.new (by omega)

/-- C9 witness: the TcpKeepalive theorem applied at concrete inputs, each
hypothesis discharged there. -/
theorem tcpKeepalive_parse_compose_spec_witness :
    TcpKeepalive.parse ⟨[0, 150], 0⟩ =
      (.ok (TcpKeepalive.new (rd16 0 150)), ⟨[0, 150], 2⟩) ∧
    TcpKeepalive.parse ⟨[7], 0⟩ = (.error .ShortInput, ⟨[7], 0⟩) ∧
    TcpKeepalive.parse ⟨TcpKeepalive.compose (TcpKeepalive.new 150), 0⟩ =
      (.ok (TcpKeepalive.new 150),
       ⟨TcpKeepalive.compose (TcpKeepalive.new 150), 2⟩) := by
  refine ⟨?_, ?_, ?_⟩
  · exact tcpKeepalive_parse_compose_spec.1 ⟨[0, 150], 0⟩ (by decide)
  · exact tcpKeepalive_parse_compose_spec.2.1 ⟨[7], 0⟩ (by decide)
  · exact tcpKeepalive_parse_compose_spec.2.2.2.2.2 150 (by decide)


--------------------------------------------------------------------------
-- Helper lemmas and concrete instruments
--------------------------------------------------------------------------

lemma length_be16 (v : Nat) : (be16 v).length = 2 := rfl

lemma length_be32 (v : Nat) : (be32 v).length = 4 := rfl

lemma writeU16At_append (a rest : List Nat) (x y v : Nat) :
    writeU16At (a ++ x :: y :: rest) a.length v =
      a ++ v / 256 % 256 :: v % 256 :: rest := by
  induction a with
  | nil => simp [writeU16At]
  | cons hd tl ih =>
      simp only [List.cons_append, writeU16At, List.length_cons, List.set] at ih ⊢
      exact congrArg (hd :: ·) ih

lemma Record.compress_eq {N D : Type} (drtype : D → Nat)
    (ncompress : N → Compressor → Except ShortBuf Compressor)
    (dcompress : D → Compressor → Except ShortBuf Compressor)
    (r : Record N D) (buf b1 : Compressor) (payload : List Nat)
    (hn : ncompress r.name buf = .ok b1)
    (hd : ∀ c : Compressor, dcompress r.data c = .ok { c with buf := c.buf ++ payload })
    (hcap : b1.buf.length + 10 + payload.length ≤ b1.cap) :
    Record.compress drtype ncompress dcompress r buf =
      if payload.length ≤ 65535 then
        .ok ⟨b1.buf ++ be16 (drtype r.data) ++ be16 r.«class» ++ be32 r.ttl
              ++ be16 payload.length ++ payload, b1.cap⟩
      else .panicked := by
  obtain ⟨bb, bc⟩ := b1
  simp only at hcap
  simp only [Record.compress, hn, Record.rtype, Compressor.compose16,
    Compressor.compose32]
  rw [if_pos (by simp only; omega : (⟨bb, bc⟩ : Compressor).buf.length + 2 ≤ (⟨bb, bc⟩ : Compressor).cap)]
  simp only []
  rw [if_pos (by simp [length_be16]; omega :
    (bb ++ be16 (drtype r.data)).length + 2 ≤ bc)]
  simp only []
  rw [if_pos (by simp [length_be16]; omega :
    (bb ++ be16 (drtype r.data) ++ be16 r.«class»).length + 4 ≤ bc)]
  simp only []
  rw [if_pos (by simp [length_be16, length_be32]; omega :
    (bb ++ be16 (drtype r.data) ++ be16 r.«class» ++ be32 r.ttl).length + 2 ≤ bc)]
  simp only []
  rw [hd]
  simp only []
  have hlen : ∀ a : List Nat,
      (a ++ be16 0 ++ payload).length - a.length - 2 = payload.length := by
    intro a
    simp [List.length_append, length_be16]
  have key : ∀ a : List Nat,
      writeU16At (a ++ be16 0 ++ payload) a.length payload.length =
        a ++ be16 payload.length ++ payload := by
    intro a
    have h1 : a ++ be16 0 ++ payload = a ++ 0 :: 0 :: payload := by
      simp [be16]
    rw [h1, writeU16At_append]
    simp [be16]
  rw [hlen, key]

/-- A concrete instance of the external name codec, used in witnesses: it
accepts exactly the root name, the single byte 0. -/
def rootNameParse (p : Parser) : Except Unit Unit × Parser :=
  if 1 ≤ p.remaining ∧ p.getByte 0 = 0 then (.ok (), { p with pos := p.pos + 1 })
  else (.error (), p)

/-- A 16-byte buffer holding one record: root name (1 byte), type 1,
class 1, TTL 0, rdlen 5, then five payload bytes. The header occupies
bytes 0 through 10, the record ends at byte 16. -/
def sampleBytes : List Nat :=
  [0, 0, 1, 0, 1, 0, 0, 0, 0, 0, 5, 1, 2, 3, 4, 5]

/-- C6: RecordHeader.parse reads the name first (name errors propagate as
Name errors), then exactly four fixed fields in order — type, class, TTL,
rdlen — as big-endian integers, consuming exactly 10 bytes after the
name; a buffer ending before the fixed 10-byte suffix completes (fewer
than 10 bytes remain after the name, so that the type, class, TTL or
rdlen field cannot be fully read; when the TTL itself is readable its
encoding is assumed allowed) yields a ShortBuf error, never a crash (the
embedding is a total function); a disallowed TTL encoding yields a Ttl
error. -/
theorem recordHeader_parse_spec {N NE : Type}
    (nparse : Parser → Except NE N × Parser) (bad : Nat → Bool)
    (p p1 : Parser) :
    (∀ (e : NE) (q : Parser), nparse p = (.error e, q) →
      RecordHeader.parse nparse bad p = (.error (.Name e), q)) ∧
    (∀ n : N, nparse p = (.ok n, p1) → 10 ≤ p1.remaining →
      bad (rd32 (p1.getByte 4) (p1.getByte 5) (p1.getByte 6)
        (p1.getByte 7)) = false →
      RecordHeader.parse nparse bad p =
        (.ok (RecordHeader.new n
            (rd16 (p1.getByte 0) (p1.getByte 1))
            (rd16 (p1.getByte 2) (p1.getByte 3))
            (rd32 (p1.getByte 4) (p1.getByte 5) (p1.getByte 6) (p1.getByte 7))
            (rd16 (p1.getByte 8) (p1.getByte 9))),
         { p1 with pos := p1.pos + 10 })) ∧
    (∀ n : N, nparse p = (.ok n, p1) → p1.remaining < 10 →
      (8 ≤ p1.remaining →
        bad (rd32 (p1.getByte 4) (p1.getByte 5) (p1.getByte 6)
          (p1.getByte 7)) = false) →
      (RecordHeader.parse nparse bad p).1 = .error .ShortBuf) ∧
    (∀ n : N, nparse p = (.ok n, p1) → 10 ≤ p1.remaining →
      bad (rd32 (p1.getByte 4) (p1.getByte 5) (p1.getByte 6)
        (p1.getByte 7)) = true →
      (RecordHeader.parse nparse bad p).1 =
        .error (.Ttl (.disallowed (rd32 (p1.getByte 4) (p1.getByte 5)
          (p1.getByte 6) (p1.getByte 7))))) := by
  obtain ⟨d, i⟩ := p1
  refine ⟨?_, ?_, ?_, ?_⟩
  · intro e q hn
    simp only [RecordHeader.parse, hn]
  · intro n hn h10 hbad
    simp only [Parser.remaining] at h10
    simp only [Parser.getByte] at hbad
    simp_arith at hbad
    simp only [RecordHeader.parse, hn, Parser.parse_u16, Parser.parse_u32,
      Ttl.parse, Parser.remaining, Parser.getByte]
    rw [if_pos (by omega : (2 : Nat) ≤ d.length - i)]
    simp only []
    rw [if_pos (by omega : (2 : Nat) ≤ d.length - (i + 2))]
    simp only []
    rw [if_pos (by omega : (4 : Nat) ≤ d.length - (i + 2 + 2))]
    simp_arith
    rw [hbad]
    simp_arith
    rw [if_pos (by omega : (2 : Nat) ≤ d.length - (i + 8))]
  · intro n hn hlt hbad
    simp only [Parser.remaining] at hlt hbad
    simp only [Parser.getByte] at hbad
    simp_arith at hbad
    simp only [RecordHeader.parse, hn, Parser.parse_u16, Parser.parse_u32,
      Ttl.parse, Parser.remaining, Parser.getByte]
    by_cases h1 : (2 : Nat) ≤ d.length - i
    · rw [if_pos h1]
      simp only []
      by_cases h2 : (2 : Nat) ≤ d.length - (i + 2)
      · rw [if_pos h2]
        simp only []
        by_cases h3 : (4 : Nat) ≤ d.length - (i + 2 + 2)
        · rw [if_pos h3]
          simp_arith
          rw [hbad (by omega)]
          simp_arith
          rw [if_neg (by omega : ¬ (2 : Nat) ≤ d.length - (i + 8))]
        · rw [if_neg h3]
      · rw [if_neg h2]
    · rw [if_neg h1]
  · intro n hn h10 hbad
    simp only [Parser.remaining] at h10
    simp only [Parser.getByte] at hbad
    simp_arith at hbad
    simp only [RecordHeader.parse, hn, Parser.parse_u16, Parser.parse_u32,
      Ttl.parse, Parser.remaining, Parser.getByte]
    rw [if_pos (by omega : (2 : Nat) ≤ d.length - i)]
    simp only []
    rw [if_pos (by omega : (2 : Nat) ≤ d.length - (i + 2))]
    simp only []
    rw [if_pos (by omega : (4 : Nat) ≤ d.length - (i + 2 + 2))]
    simp_arith
    rw [hbad]
    simp_arith



/-- C6 witness: the header-parse theorem applied at concrete inputs — a
bad name, a complete header, buffers that end inside each of the four
fixed fields (1 byte short of the full suffix, inside the TTL, inside the
class, inside the type), and a disallowed TTL — each hypothesis
discharged there. -/
theorem recordHeader_parse_spec_witness :
    RecordHeader.parse rootNameParse (fun _ => false) ⟨[5], 0⟩ =
      (.error (.Name ()), ⟨[5], 0⟩) ∧
    RecordHeader.parse rootNameParse (fun _ => false) ⟨sampleBytes, 0⟩ =
      (.ok (RecordHeader.new () 1 1 0 5), ⟨sampleBytes, 11⟩) ∧
    (RecordHeader.parse rootNameParse (fun _ => false)
        ⟨[0, 0, 1, 0, 1, 0, 0, 0, 0, 0], 0⟩).1 =
      .error .ShortBuf ∧
    (RecordHeader.parse rootNameParse (fun _ => false)
        ⟨[0, 0, 1, 0, 1, 0, 0], 0⟩).1 =
      .error .ShortBuf ∧
    (RecordHeader.parse rootNameParse (fun _ => false) ⟨[0, 0, 1, 9], 0⟩).1 =
      .error .ShortBuf ∧
    (RecordHeader.parse rootNameParse (fun _ => false) ⟨[0, 9], 0⟩).1 =
      .error .ShortBuf ∧
    (RecordHeader.parse rootNameParse (fun _ => true) ⟨sampleBytes, 0⟩).1 =
      .error (.Ttl (.disallowed 0)) := by
  refine ⟨?_, ?_, ?_, ?_, ?_, ?_, ?_⟩
  · exact (recordHeader_parse_spec rootNameParse (fun _ => false)
      ⟨[5], 0⟩ ⟨[], 0⟩).1 () ⟨[5], 0⟩ rfl
  · exact (recordHeader_parse_spec rootNameParse (fun _ => false)
      ⟨sampleBytes, 0⟩ ⟨sampleBytes, 1⟩).2.1 () rfl (by decide) rfl
  · exact (recordHeader_parse_spec rootNameParse (fun _ => false)
      ⟨[0, 0, 1, 0, 1, 0, 0, 0, 0, 0], 0⟩
      ⟨[0, 0, 1, 0, 1, 0, 0, 0, 0, 0], 1⟩).2.2.1 () rfl (by decide)
      (fun _ => rfl)
  · exact (recordHeader_parse_spec rootNameParse (fun _ => false)
      ⟨[0, 0, 1, 0, 1, 0, 0], 0⟩
      ⟨[0, 0, 1, 0, 1, 0, 0], 1⟩).2.2.1 () rfl (by decide) (fun _ => rfl)
  · exact (recordHeader_parse_spec rootNameParse (fun _ => false)
      ⟨[0, 0, 1, 9], 0⟩ ⟨[0, 0, 1, 9], 1⟩).2.2.1 () rfl (by decide)
      (fun _ => rfl)
  · exact (recordHeader_parse_spec rootNameParse (fun _ => false)
      ⟨[0, 9], 0⟩ ⟨[0, 9], 1⟩).2.2.1 () rfl (by decide) (fun _ => rfl)
  · exact (recordHeader_parse_spec rootNameParse (fun _ => true)
      ⟨sampleBytes, 0⟩ ⟨sampleBytes, 1⟩).2.2.2 () rfl (by decide) rfl

/-- C7: RecordHeader.parse_and_skip parses a record header and then
advances the cursor by exactly rdlen bytes without interpreting them,
returning the parsed header; when fewer than rdlen bytes remain after the
header it fails with a ShortBuf error (leaving the cursor at the end of
the header); header-parse errors propagate unchanged. -/
theorem parse_and_skip_spec {N NE : Type}
    (nparse : Parser → Except NE N × Parser) (bad : Nat → Bool)
    (p p1 : Parser) (h : RecordHeader N) :
    (RecordHeader.parse nparse bad p = (.ok h, p1) → h.rdlen ≤ p1.remaining →
      RecordHeader.parse_and_skip nparse bad p =
        (.ok h, { p1 with pos := p1.pos + h.rdlen })) ∧
    (RecordHeader.parse nparse bad p = (.ok h, p1) → p1.remaining < h.rdlen →
      RecordHeader.parse_and_skip nparse bad p = (.error .ShortBuf, p1)) ∧
    (∀ (e : RecordHeaderParseError NE) (q : Parser),
      RecordHeader.parse nparse bad p = (.error e, q) →
      RecordHeader.parse_and_skip nparse bad p = (.error e, q)) := by
  refine ⟨?_, ?_, ?_⟩
  · intro hp hr
    simp only [RecordHeader.parse_and_skip, hp, Parser.advance, if_pos hr]
  · intro hp hr
    have hc : ¬ h.rdlen ≤ p1.remaining := by omega
    simp only [RecordHeader.parse_and_skip, hp, Parser.advance, if_neg hc]
  · intro e q hp
    simp only [RecordHeader.parse_and_skip, hp]

/-- C7 witness: parse_and_skip applied to a complete record (cursor ends
at the record boundary, byte 16) and to a record whose data is truncated
(ShortBuf), each hypothesis discharged at the concrete input. -/
theorem parse_and_skip_spec_witness :
    RecordHeader.parse_and_skip rootNameParse (fun _ => false) ⟨sampleBytes, 0⟩ =
      (.ok (RecordHeader.new () 1 1 0 5), ⟨sampleBytes, 16⟩) ∧
    RecordHeader.parse_and_skip rootNameParse (fun _ => false)
        ⟨[0, 0, 1, 0, 1, 0, 0, 0, 0, 0, 5, 1, 2], 0⟩ =
      (.error .ShortBuf, ⟨[0, 0, 1, 0, 1, 0, 0, 0, 0, 0, 5, 1, 2], 11⟩) := by
  constructor
  · exact (parse_and_skip_spec rootNameParse (fun _ => false) ⟨sampleBytes, 0⟩
      ⟨sampleBytes, 11⟩ (RecordHeader.new () 1 1 0 5)).1 rfl (by decide)
  · exact (parse_and_skip_spec rootNameParse (fun _ => false)
      ⟨[0, 0, 1, 0, 1, 0, 0, 0, 0, 0, 5, 1, 2], 0⟩
      ⟨[0, 0, 1, 0, 1, 0, 0, 0, 0, 0, 5, 1, 2], 11⟩
      (RecordHeader.new () 1 1 0 5)).2.1 rfl (by decide)

/-- C3: when the record-data dispatch does not recognize the type code
(its None outcome, which consumes nothing), both record-parse paths
succeed without error, yield the none outcome, and advance the cursor by
exactly rdlen bytes past the header, keeping a following record in the
same buffer in sync. -/
theorem unrecognized_type_parse_spec {N NE D DE : Type}
    (nparse : Parser → Except NE N × Parser) (bad : Nat → Bool)
    (dparse : Nat → Nat → Parser → Except DE (Option D) × Parser)
    (p p1 : Parser) (h : RecordHeader N)
    (hp : RecordHeader.parse nparse bad p = (.ok h, p1))
    (hd : dparse h.rtype h.rdlen p1 = (.ok none, p1))
    (hfit : p1.pos + h.rdlen ≤ p1.data.length) :
    parseOptRecord nparse bad dparse p =
      (.ok none, { p1 with pos := p1.pos + h.rdlen }) ∧
    @RecordHeader.parse_into_record N NE D DE dparse h p1 =
      (.ok none, { p1 with pos := p1.pos + h.rdlen }) := by
  constructor
  · have hadv : h.rdlen ≤ p1.remaining := by
      simp only [Parser.remaining]
      omega
    simp only [parseOptRecord, hp, hd, Parser.advance, if_pos hadv]
  · simp only [RecordHeader.parse_into_record, hd, Parser.seek, if_pos hfit]

/-- C3 witness: a record of an unrecognized type with rdlen 5; both parse
paths yield the none outcome with the cursor at the record boundary
(byte 16), each hypothesis discharged at the concrete input. -/
theorem unrecognized_type_parse_spec_witness :
    parseOptRecord rootNameParse (fun _ => false)
        (fun _ _ p => ((.ok none : Except Unit (Option Unit)), p))
        ⟨sampleBytes, 0⟩ =
      (.ok none, ⟨sampleBytes, 16⟩) ∧
    @RecordHeader.parse_into_record Unit Unit Unit Unit
        (fun _ _ p => (.ok none, p)) (RecordHeader.new () 1 1 0 5)
        ⟨sampleBytes, 11⟩ =
      (.ok none, ⟨sampleBytes, 16⟩) := by
  exact unrecognized_type_parse_spec rootNameParse (fun _ => false)
    (fun _ _ p => ((.ok none : Except Unit (Option Unit)), p)) ⟨sampleBytes, 0⟩
    ⟨sampleBytes, 11⟩ (RecordHeader.new () 1 1 0 5) rfl rfl (by decide)

/-- C1: evaluation of both record-parse paths at a record whose type is
recognized but whose payload is malformed (the dispatch fails without
consuming): the error is propagated as a typed Data error, but the
cursor is left at the end of the header (position 11), NOT advanced to
the record boundary (position 16 = header end + rdlen 5) as the claim and
the function's own documentation state. -/
theorem recordParse_data_error_cursor :
    parseOptRecord rootNameParse (fun _ => false)
        (fun _ _ p => ((.error () : Except Unit (Option Unit)), p))
        ⟨sampleBytes, 0⟩ =
      (.error (.Data ()), ⟨sampleBytes, 11⟩) ∧
    @RecordHeader.parse_into_record Unit Unit Unit Unit
        (fun _ _ p => (.error (), p)) (RecordHeader.new () 1 1 0 5)
        ⟨sampleBytes, 11⟩ =
      (.error (.Data ()), ⟨sampleBytes, 11⟩) ∧
    (11 : Nat) + 5 = 16 ∧ (⟨sampleBytes, 11⟩ : Parser).pos ≠ 16 :=
  ⟨rfl, rfl, rfl, by decide⟩

/-- C4: the compressing composition reserves a 2-byte zero placeholder
for RDLENGTH after name, type, class and TTL, writes the payload, and
patches the placeholder with the actual payload length (current offset
minus the position immediately after the placeholder) big-endian; in
particular a zero-length payload yields RDLENGTH bytes 00 00 (see the
witness). -/
theorem compress_backpatches_rdlen {N D : Type} (drtype : D → Nat)
    (ncompress : N → Compressor → Except ShortBuf Compressor)
    (dcompress : D → Compressor → Except ShortBuf Compressor)
    (r : Record N D) (buf b1 : Compressor) (payload : List Nat)
    (hn : ncompress r.name buf = .ok b1)
    (hd : ∀ c : Compressor,
      dcompress r.data c = .ok { c with buf := c.buf ++ payload })
    (hcap : b1.buf.length + 10 + payload.length ≤ b1.cap)
    (hfit : payload.length ≤ 65535) :
    Record.compress drtype ncompress dcompress r buf =
      .ok ⟨b1.buf ++ be16 (drtype r.data) ++ be16 r.«class» ++ be32 r.ttl
            ++ be16 payload.length ++ payload, b1.cap⟩ := by
  rw [Record.compress_eq drtype ncompress dcompress r buf b1 payload hn hd hcap,
    if_pos hfit]

/-- C4 witness: compressing a record with a zero-length payload; the
backpatched RDLENGTH is the final two bytes 00 00. -/
theorem compress_backpatches_rdlen_witness :
    Record.compress (fun _ : Unit => 1) (fun _ c => .ok c)
        (fun _ c => .ok { c with buf := c.buf ++ ([] : List Nat) })
        (Record.new () 1 0 ()) ⟨[], 100⟩ =
      .ok ⟨[0, 1, 0, 1, 0, 0, 0, 0, 0, 0], 100⟩ := by
  have h := compress_backpatches_rdlen (fun _ : Unit => 1) (fun _ c => .ok c)
    (fun _ c => .ok { c with buf := c.buf ++ ([] : List Nat) })
    (Record.new () 1 0 ()) ⟨[], 100⟩ ⟨[], 100⟩ [] rfl (fun _ => rfl)
    (by decide) (by decide)
  simpa [be16, be32] using h

/-- C2 (amended): when the composed payload exceeds 65535 bytes, the
compressing composition does NOT return an error result — its length
assertion fails and the process aborts (the panicked outcome). -/
theorem compress_oversize_aborts {N D : Type} (drtype : D → Nat)
    (ncompress : N → Compressor → Except ShortBuf Compressor)
    (dcompress : D → Compressor → Except ShortBuf Compressor)
    (r : Record N D) (buf b1 : Compressor) (payload : List Nat)
    (hn : ncompress r.name buf = .ok b1)
    (hd : ∀ c : Compressor,
      dcompress r.data c = .ok { c with buf := c.buf ++ payload })
    (hcap : b1.buf.length + 10 + payload.length ≤ b1.cap)
    (hbig : 65535 < payload.length) :
    Record.compress drtype ncompress dcompress r buf = .panicked := by
  rw [Record.compress_eq drtype ncompress dcompress r buf b1 payload hn hd hcap,
    if_neg (by omega)]

/-- C2 amended-claim witness: a record whose payload composes to 65536
bytes aborts, each hypothesis discharged at the concrete input. -/
theorem compress_oversize_aborts_witness :
    Record.compress (fun _ : Unit => 1) (fun _ c => .ok c)
        (fun _ c => .ok { c with buf := c.buf ++ List.replicate 65536 0 })
        (Record.new () 1 0 ()) ⟨[], 100000⟩ = .panicked := by
  exact compress_oversize_aborts (fun _ : Unit => 1) (fun _ c => .ok c)
    (fun _ c => .ok { c with buf := c.buf ++ List.replicate 65536 0 })
    (Record.new () 1 0 ()) ⟨[], 100000⟩ ⟨[], 100000⟩ (List.replicate 65536 0)
    rfl (fun _ => rfl) (by rw [List.length_replicate]; norm_num)
    (by rw [List.length_replicate]; norm_num)

/-- C2 counterexample: at a concrete record whose payload composes to
65536 bytes the compressing composition yields the process-abort outcome,
which is neither the ShortBuf error result nor any successful result —
refuting the claim that the overflow is reported as an explicit error and
never aborts. -/
theorem compress_oversize_panics_concrete :
    Record.compress (fun _ : Unit => 1) (fun _ c => .ok c)
        (fun _ c => .ok { c with buf := c.buf ++ List.replicate 65536 1 })
        (Record.new () 1 0 ()) ⟨[], 100000⟩ = .panicked ∧
    ComposeResult.panicked ≠ ComposeResult.shortBuf ∧
    ∀ c : Compressor, ComposeResult.panicked ≠ ComposeResult.ok c := by
  refine ⟨?_, by decide, fun c => by simp⟩
  rw [Record.compress_eq (fun _ : Unit => 1) (fun _ c => .ok c)
    (fun _ c => .ok { c with buf := c.buf ++ List.replicate 65536 1 })
    (Record.new () 1 0 ()) ⟨[], 100000⟩ ⟨[], 100000⟩ (List.replicate 65536 1)
    rfl (fun _ => rfl) (by rw [List.length_replicate]; norm_num),
    if_neg (by rw [List.length_replicate]; norm_num)]

/-- C5: a Record stores no type field — its reported type (Record.rtype)
is derived from the payload data (equals the payload's rtype) — and both
the plain and the compressing composition write that derived type as the
wire TYPE field directly after the name. -/
theorem rtype_derived_from_data {N D : Type} (nbytes : N → List Nat)
    (drtype dlen : D → Nat) (dbytes : D → List Nat)
    (ncompress : N → Compressor → Except ShortBuf Compressor)
    (dcompress : D → Compressor → Except ShortBuf Compressor)
    (r : Record N D) (buf b1 : Compressor) (payload : List Nat) :
    Record.rtype drtype r = drtype r.data ∧
    Record.compose nbytes drtype dlen dbytes r =
      nbytes r.name ++ be16 (Record.rtype drtype r) ++ be16 r.«class»
        ++ be32 r.ttl ++ be16 (dlen r.data % 65536) ++ dbytes r.data ∧
    (ncompress r.name buf = .ok b1 →
      (∀ c : Compressor,
        dcompress r.data c = .ok { c with buf := c.buf ++ payload }) →
      b1.buf.length + 10 + payload.length ≤ b1.cap →
      payload.length ≤ 65535 →
      Record.compress drtype ncompress dcompress r buf =
        .ok ⟨b1.buf ++ be16 (Record.rtype drtype r) ++ be16 r.«class»
              ++ be32 r.ttl ++ be16 payload.length ++ payload, b1.cap⟩) := by
  refine ⟨rfl, rfl, ?_⟩
  intro hn hd hcap hfit
  rw [Record.compress_eq drtype ncompress dcompress r buf b1 payload hn hd hcap,
    if_pos hfit]
  rfl

/-- C5 witness: the derived-type theorem applied to a concrete record;
the wire TYPE bytes 00 01 follow the name in both compositions, each
hypothesis discharged at the concrete input. -/
theorem rtype_derived_from_data_witness :
    Record.rtype (fun _ : Unit => 1) (Record.new () 1 0 ()) = 1 ∧
    Record.compose (fun _ : Unit => [0]) (fun _ : Unit => 1) (fun _ => 5)
        (fun _ => [9, 9, 9, 9, 9]) (Record.new () 1 0 ()) =
      [0, 0, 1, 0, 1, 0, 0, 0, 0, 0, 5, 9, 9, 9, 9, 9] ∧
    Record.compress (fun _ : Unit => 1)
        (fun _ c => .ok { c with buf := c.buf ++ [0] })
        (fun _ c => .ok { c with buf := c.buf ++ [9, 9, 9, 9, 9] })
        (Record.new () 1 0 ()) ⟨[], 100⟩ =
      .ok ⟨[0, 0, 1, 0, 1, 0, 0, 0, 0, 0, 5, 9, 9, 9, 9, 9], 100⟩ := by
  have h := rtype_derived_from_data (fun _ : Unit => [0]) (fun _ : Unit => 1)
    (fun _ : Unit => 5) (fun _ : Unit => [9, 9, 9, 9, 9])
    (fun _ c => .ok { c with buf := c.buf ++ [0] })
    (fun _ c => .ok { c with buf := c.buf ++ [9, 9, 9, 9, 9] })
    (Record.new () 1 0 ()) ⟨[], 100⟩ ⟨[0], 100⟩ [9, 9, 9, 9, 9]
  refine ⟨h.1, ?_, ?_⟩
  · simpa [be16, be32] using h.2.1
  · simpa [be16, be32] using h.2.2 rfl (fun _ => rfl) (by decide) (by decide)

/-- C10: in the plain (non-compressing) composition the RDLENGTH field
written into the header is the payload's compose_len reduced modulo 2^16
(the `as u16` cast); the composition is a total function, so a payload
longer than 65535 raises no error and the truncated length is written
silently (and differs from the true length). -/
theorem compose_writes_truncated_rdlen {N D : Type} (nbytes : N → List Nat)
    (drtype dlen : D → Nat) (dbytes : D → List Nat) (r : Record N D) :
    Record.compose nbytes drtype dlen dbytes r =
      nbytes r.name ++ be16 (drtype r.data) ++ be16 r.«class» ++ be32 r.ttl
        ++ be16 (dlen r.data % 65536) ++ dbytes r.data ∧
    (65535 < dlen r.data → dlen r.data % 65536 ≠ dlen r.data) :=
  ⟨rfl, fun h => by omega⟩

/-- C10 witness: a record whose payload compose_len is 65539 composes
without error; the written RDLENGTH bytes are 00 03 (65539 mod 2^16),
each hypothesis discharged at the concrete input. -/
theorem compose_writes_truncated_rdlen_witness :
    Record.compose (fun _ : Unit => [0]) (fun _ : Unit => 1) (fun _ => 65539)
        (fun _ => [7, 7, 7]) (Record.new () 1 0 ()) =
      [0, 0, 1, 0, 1, 0, 0, 0, 0, 0, 3, 7, 7, 7] ∧
    (65539 : Nat) % 65536 ≠ 65539 := by
  have h := compose_writes_truncated_rdlen (fun _ : Unit => [0])
    (fun _ : Unit => 1) (fun _ : Unit => 65539) (fun _ : Unit => [7, 7, 7])
    (Record.new () 1 0 ())
  exact ⟨by simpa [be16, be32] using h.1, h.2 (by decide)⟩

end DnsWire
